import Mathlib

/-!
Verification of the RNNoise PulseAudio controller script (src/rnnoise.py).

The script is modelled shallowly: Python strings are Lean `String`s, the
string methods the script uses (`split`, `startswith`, `strip`,
`urllib.parse.unquote`, substring search) are implemented below as
executable Lean functions over `String.data`, and every effectful
operation (running an external command, creating a directory, removing a
tree, printing a traceback) is recorded in an explicit trace instead of
being performed.  Exit codes and exception propagation are modelled with
an `Outcome` type: `success` for normal return, `exc` for an ordinary
Python `Exception` (caught by `except Exception`), and `fatalExit c` for
`sys.exit(c)` (a `SystemExit`, which `except Exception` does not catch).
-/

/-- Python `s.split(sep)` worker over character lists: scans left to
right, cutting at each non-overlapping occurrence of `sep`.  The fuel
argument only needs to be at least the length of the scanned list; the
script never splits on an empty separator, and for a nonempty separator
every step consumes at least one character. -/
def splitAuxF (sep : List Char) : Nat → List Char → List Char → List (List Char)
  | _, [], acc => [acc.reverse]
  | 0, s, acc => [acc.reverse ++ s]
  | fuel + 1, c :: rest, acc =>
    if List.isPrefixOf sep (c :: rest) then
      acc.reverse :: splitAuxF sep fuel ((c :: rest).drop sep.length) []
    else
      splitAuxF sep fuel rest (c :: acc)

/-- Python `s.split(sep)` for a nonempty separator. -/
def pySplit (s : String) (sep : String) : List String :=
  (splitAuxF sep.data s.data.length s.data []).map String.mk

/-- Python `s.startswith(pfx)`. -/
def pyStartswith (s : String) (pfx : String) : Bool :=
  List.isPrefixOf pfx.data s.data

/-- The separator `": "` used by `line.split(": ")`, as a character list. -/
def sepCS : List Char := [':', ' ']

/-- The prefix looked for on the default-source line of `pacmd stat`. -/
def srcPfx : String := "Default source name: "

/-- The prefix looked for on the default-sink line of `pacmd stat`. -/
def sinkPfx : String := "Default sink name: "

/-- Python `line.split(": ")[1]`.  The script only evaluates this on
lines that start with one of the two prefixes above, so the separator
occurs and index 1 exists; the default is never reached there. -/
def valOf (line : String) : String :=
  (pySplit line ": ").getD 1 ""

/-- One iteration of the line loop in `get_default_sinks`: each of the
two `if line.startswith(...)` statements overwrites its variable when the
prefix matches.  `none` models a still-unassigned Python local. -/
def sinksStep (acc : Option String × Option String) (line : String) :
    Option String × Option String :=
  let a1 := if pyStartswith line srcPfx then some (valOf line) else acc.1
  let a2 := if pyStartswith line sinkPfx then some (valOf line) else acc.2
  (a1, a2)

/-- `get_default_sinks`, as a function of the decoded stdout of
`pacmd stat`: split into lines on newline, scan every line, return the
pair (input_sink, output_sink).  A `none` component means the Python
local was never assigned, so the `return` statement would raise
`UnboundLocalError` (an ordinary `Exception`). -/
def get_default_sinks (stdout : String) : Option String × Option String :=
  List.foldl sinksStep (none, none) (pySplit stdout "\n")

/-- Fixed path of the PulseAudio control binary used for loading modules. -/
def PACMD : String := "/usr/bin/pacmd"

/-- Fixed path of the PulseAudio control binary used for unloading modules. -/
def PACTL : String := "/usr/bin/pactl"

/-- The `pacmd stat` invocation made by `get_default_sinks`. -/
def statCmd : List String := [PACMD, "stat"]

/-- `args.path / "bin" / "ladspa" / "librnnoise_ladspa.so"`. -/
def ladspaFilePath (path : String) : String :=
  path ++ "/bin/ladspa/librnnoise_ladspa.so"

/-- The `commands` list built by `enable_rnnoise`, given the LADSPA
plugin path and the detected default input sink. -/
def enableCommands (ladspa_file input_sink : String) : List (List String) :=
  [ [PACMD, "load-module", "module-null-sink",
      "sink_name=mic_denoised_out", "rate=48000"],
    [PACMD, "load-module", "module-ladspa-sink",
      "sink_name=mic_raw_in", "sink_master=mic_denoised_out",
      "label=noise_suppressor_mono", "plugin=" ++ ladspa_file, "control=95"],
    [PACMD, "load-module", "module-loopback",
      "source=" ++ input_sink, "sink=mic_raw_in", "channels=1"],
    [PACMD, "load-module", "module-remap-source",
      "source_name=denoised", "master=mic_denoised_out.monitor", "channels=1"],
    [PACMD, "set-default-source", "denoised"] ]

/-- The `commands` list of `disable_rnnoise`. -/
def disableCommands : List (List String) :=
  [ [PACTL, "unload-module", "module-loopback"],
    [PACTL, "unload-module", "module-null-sink"],
    [PACTL, "unload-module", "module-ladspa-sink"],
    [PACTL, "unload-module", "module-remap-source"] ]

/-- Outcome of running a piece of the script: normal return, an ordinary
Python `Exception` propagating, or `sys.exit code` (`SystemExit`). -/
inductive Outcome
  | success
  | exc
  | fatalExit (code : Nat)
  deriving DecidableEq, Repr

/-- Environment of one `enable` run: the install path, whether
`librnnoise_ladspa.so` exists there, the stdout of `pacmd stat`, and the
exit status of each external command (`true` = exit 0). -/
structure EnableEnv where
  path : String
  ladspaExists : Bool
  statOut : String
  cmdOk : List String → Bool

/-- The command loop of `enable_rnnoise`: `subprocess.run(command,
check=True)` runs the command and then raises `CalledProcessError` on a
nonzero exit, so a failing command is issued but stops the loop. -/
def runChecked (ok : List String → Bool) : List (List String) → List (List String) × Bool
  | [] => ([], true)
  | c :: rest =>
    if ok c then
      let r := runChecked ok rest
      (c :: r.1, r.2)
    else
      ([c], false)

/-- `enable_rnnoise`: computes the plugin path, queries the default
sinks (issuing `pacmd stat` first), raises if a sink variable was left
unassigned, then checks that the plugin file exists (calling
`sys.exit 1` if not), and finally runs the five load commands with
`check=True`.  Returns the issued external commands and the outcome. -/
def enable_rnnoise (env : EnableEnv) : List (List String) × Outcome :=
  match get_default_sinks env.statOut with
  | (some input_sink, some _) =>
    if env.ladspaExists then
      let r := runChecked env.cmdOk
        (enableCommands (ladspaFilePath env.path) input_sink)
      (statCmd :: r.1, if r.2 then Outcome.success else Outcome.exc)
    else
      ([statCmd], Outcome.fatalExit 1)
  | _ => ([statCmd], Outcome.exc)

/-- The command loop of `disable_rnnoise`: `subprocess.run(command)`
without `check` never raises on a nonzero exit status, so every command
is issued no matter how the previous ones fared. -/
def runBestEffort (ok : List String → Bool) : List (List String) → List (List String)
  | [] => []
  | c :: rest => c :: runBestEffort ok rest

/-- `disable_rnnoise`: issues the four unload commands unconditionally
and always returns normally. -/
def disable_rnnoise (ok : List String → Bool) : List (List String) × Outcome :=
  (runBestEffort ok disableCommands, Outcome.success)

/-- `enable_monitoring`: queries the default sinks again (issuing
`pacmd stat`), raises if a sink variable was left unassigned, then
issues one loopback command without `check`. -/
def enable_monitoring (env : EnableEnv) : List (List String) × Outcome :=
  match get_default_sinks env.statOut with
  | (some _, some output_sink) =>
    ([statCmd,
      [PACMD, "load-module", "module-loopback", "latency_msec=1",
        "source=denoised", "sink=" ++ output_sink]], Outcome.success)
  | _ => ([statCmd], Outcome.exc)

/-- One observable event of the top-level action dispatch. -/
inductive Event
  | cmd (c : List String)
  | rmtree (path : String)
  | printExc
  deriving DecidableEq, Repr

/-- The `enable` branch of the action dispatch: run `enable_rnnoise`
(and `enable_monitoring` when the monitor flag is set) inside
`try ... except Exception`; on an ordinary exception run
`disable_rnnoise` and then `traceback.print_exc()`, and fall off the end
of the script with exit status 0.  A `SystemExit` is not caught and
terminates the process with its code.  Returns (events, exit status). -/
def enableAction (env : EnableEnv) (monitor : Bool) : List Event × Nat :=
  let r1 := enable_rnnoise env
  match r1.2 with
  | Outcome.fatalExit c => (r1.1.map Event.cmd, c)
  | Outcome.exc =>
    (r1.1.map Event.cmd ++ (disable_rnnoise env.cmdOk).1.map Event.cmd
      ++ [Event.printExc], 0)
  | Outcome.success =>
    if monitor then
      let r2 := enable_monitoring env
      match r2.2 with
      | Outcome.exc =>
        ((r1.1 ++ r2.1).map Event.cmd
          ++ (disable_rnnoise env.cmdOk).1.map Event.cmd
          ++ [Event.printExc], 0)
      | _ => ((r1.1 ++ r2.1).map Event.cmd, 0)
    else
      (r1.1.map Event.cmd, 0)

/-- The `uninstall` branch of the action dispatch: when the install
directory exists, run `disable_rnnoise` and then `shutil.rmtree` and
finish with status 0; otherwise print a message and `sys.exit 1`.
Returns (events, exit status, whether the directory exists afterwards). -/
def uninstallAction (path : String) (ok : List String → Bool) (dirExists : Bool) :
    List Event × Nat × Bool :=
  if dirExists then
    ((disable_rnnoise ok).1.map Event.cmd ++ [Event.rmtree path], 0, false)
  else
    ([], 1, false)

/-- Python `s.strip(chr)` for a single strip character: drop every
leading and trailing occurrence. -/
def pyStrip (strip : Char) (s : List Char) : List Char :=
  ((s.dropWhile (fun c => c = strip)).reverse.dropWhile (fun c => c = strip)).reverse

/-- The greedy capture of the regular expression `filename=(.+)`: the
rest of the line, where `.` does not match a newline. -/
def takeLine (s : List Char) : List Char :=
  s.takeWhile (fun c => c ≠ '\n')

/-- `re.findall("filename=(.+)", disposition)[0].strip(chr(34))`, as an
`Option`: scan for the first occurrence of `filename=` that is followed
by at least one non-newline character, capture greedily to the end of
the line, and strip double quotes from both ends.  `none` models the
`IndexError` path (`findall` found nothing), which the script turns
into `file_name = None`. -/
def findFilename : List Char → Option (List Char)
  | [] => none
  | c :: rest =>
    if List.isPrefixOf ("filename=".data) (c :: rest) then
      let captured := takeLine ((c :: rest).drop 9)
      if captured.isEmpty then findFilename rest else some (pyStrip '"' captured)
    else
      findFilename rest

/-- The value of one hexadecimal digit, if the character is one. -/
def hexVal (c : Char) : Option Nat :=
  if '0' ≤ c ∧ c ≤ '9' then some (c.toNat - '0'.toNat)
  else if 'a' ≤ c ∧ c ≤ 'f' then some (c.toNat - 'a'.toNat + 10)
  else if 'A' ≤ c ∧ c ≤ 'F' then some (c.toNat - 'A'.toNat + 10)
  else none

/-- `urllib.parse.unquote` restricted to single-byte escapes: every
valid `%XX` pair is decoded, anything else is copied verbatim.  (The
Python function additionally reassembles multi-byte UTF-8 sequences;
for the ASCII escapes relevant here the two agree.) -/
def pyUnquote : List Char → List Char
  | '%' :: a :: b :: rest =>
    (match hexVal a, hexVal b with
      | some x, some y => Char.ofNat (16 * x + y) :: pyUnquote rest
      | _, _ => '%' :: pyUnquote (a :: b :: rest))
  | c :: rest => c :: pyUnquote rest
  | [] => []

/-- `pathlib` path joining as the script uses it: `Path(".") / f` is
just `f`, otherwise the two parts are joined with a slash. -/
def pathJoin (dir file : String) : String :=
  if dir = "." then file else dir ++ "/" ++ file

/-- `stream.url.split("/")[-1]`: the last slash-separated segment. -/
def lastUrlSegment (u : String) : String :=
  (pySplit u "/").getLastD ""

/-- The response headers and final URL of the `requests.get` stream, the
only parts of the HTTP response the filename logic reads. -/
structure HttpResponse where
  contentDisposition : Option String
  finalUrl : String

/-- Observable result of `download`: the directories created with
`mkdir(parents=True, exist_ok=True)` and the path opened for writing. -/
structure DownloadOut where
  mkdirs : List String
  output_file : String
  deriving DecidableEq, Repr

/-- The filename taken from the content-disposition header, when the
header is present and the regular expression matches. -/
def dispositionName (resp : HttpResponse) : Option String :=
  resp.contentDisposition.bind (fun d => (findFilename d.data).map String.mk)

/-- The `download` function: with `save_as` set, the output path is
exactly `save_as` and no directory is created; otherwise the filename
comes from the content-disposition header if possible, else from the
last segment of the final URL, the save directory (default `"."`) is
created, and the joined path is URL-decoded. -/
def download (_url : String) (save_as save_path : Option String)
    (resp : HttpResponse) : DownloadOut :=
  match save_as with
  | some s => { mkdirs := [], output_file := s }
  | none =>
    let file_name := dispositionName resp
    let sp := match save_path with
      | none => "."
      | some p => p
    let output_file := match file_name with
      | none => pathJoin sp (lastUrlSegment resp.finalUrl)
      | some fn => pathJoin sp fn
    { mkdirs := [sp], output_file := String.mk (pyUnquote output_file.data) }

/-- Modelled from the spec, for the amended form of the filename-priority
claim: the explicit override wins, then the content-disposition name,
then the URL-decoded last path segment. -/
def amendedOutputName (save_as save_path : Option String) (resp : HttpResponse) : String :=
  match save_as with
  | some s => s
  | none =>
    String.mk (pyUnquote (pathJoin (save_path.getD ".")
      ((dispositionName resp).getD (lastUrlSegment resp.finalUrl))).data)

/-- One asset of the release listing returned by the GitHub API. -/
structure Asset where
  name : String
  browser_download_url : String

/-- The asset loop of the `install` branch: every asset whose name
starts with `linux` overwrites `download_url`, which starts as `None`. -/
def resolveDownloadUrl (assets : List Asset) : Option String :=
  List.foldl
    (fun acc a =>
      if pyStartswith a.name "linux" then some a.browser_download_url else acc)
    none assets

/-- The check after the asset loop: `download_url is None` prints an
error and calls `sys.exit 1`, otherwise installation proceeds with the
resolved URL. -/
def installResolveExit (assets : List Asset) : Except Nat String :=
  match resolveDownloadUrl assets with
  | none => Except.error 1
  | some u => Except.ok u

/-- Modelled from the spec, for the amended form of the sink-parsing
claim: the value extracted from the last line carrying the given
prefix, scanning in order. -/
def lastMatch (pfx : String) (lines : List String) : Option String :=
  List.foldl
    (fun acc line => if pyStartswith line pfx then some (valOf line) else acc)
    none lines

/-- Substring occurrence test over character lists: `sep` occurs
somewhere in the list. -/
def containsSub (sep : List Char) : List Char → Bool
  | [] => sep.isEmpty
  | c :: rest => List.isPrefixOf sep (c :: rest) || containsSub sep rest

/-- The first occurrence of `sep` in `s` is at index `n`: it occurs
there and at no earlier index. -/
def firstOccAt (sep s : List Char) (n : Nat) : Prop :=
  List.isPrefixOf sep (s.drop n) = true ∧
  ∀ i, i < n → List.isPrefixOf sep (s.drop i) = false

set_option maxRecDepth 16384

theorem runChecked_all_ok (ok : List String → Bool) (cmds : List (List String))
    (h : ∀ c ∈ cmds, ok c = true) : runChecked ok cmds = (cmds, true) := by
  induction cmds with
  | nil => rfl
  | cons c rest ih =>
    rw [runChecked]
    rw [h c (List.mem_cons_self c rest), if_pos rfl]
    rw [ih (fun d hd => h d (List.mem_cons_of_mem c hd))]

theorem runBestEffort_eq (ok : List String → Bool) (cmds : List (List String)) :
    runBestEffort ok cmds = cmds := by
  induction cmds with
  | nil => rfl
  | cons c rest ih => rw [runBestEffort, ih]

/-- A concrete environment in which everything works. -/
def wEnvOk : EnableEnv :=
  { path := "/home/user/.local/share/rnnoise"
    ladspaExists := true
    statOut := "Default source name: mic_in\nDefault sink name: speaker_out"
    cmdOk := fun _ => true }

/-- A concrete environment in which only the loopback creation fails. -/
def wEnvLoopFail : EnableEnv :=
  { path := "/home/user/.local/share/rnnoise"
    ladspaExists := true
    statOut := "Default source name: mic_in\nDefault sink name: speaker_out"
    cmdOk := fun c => !(c.contains "module-loopback") }

/-- A concrete environment in which the plugin file is missing. -/
def wEnvNoLib : EnableEnv :=
  { path := "/home/user/.local/share/rnnoise"
    ladspaExists := false
    statOut := "Default source name: mic_in\nDefault sink name: speaker_out"
    cmdOk := fun _ => true }

/-- Claim C1: when the default sinks are found, the plugin file exists and
every external command succeeds, `enable_rnnoise` issues the five
module-creation commands in the fixed dependency order — null-sink, then
ladspa-sink, then loopback, then remap-source, then set-default-source —
each as one separate external call (after the initial `pacmd stat`). -/
theorem enable_fixed_command_order (env : EnableEnv) (i o : String)
    (hs : get_default_sinks env.statOut = (some i, some o))
    (hl : env.ladspaExists = true)
    (hok : ∀ c, env.cmdOk c = true) :
    enable_rnnoise env =
      (statCmd ::
        [[PACMD, "load-module", "module-null-sink",
            "sink_name=mic_denoised_out", "rate=48000"],
         [PACMD, "load-module", "module-ladspa-sink",
            "sink_name=mic_raw_in", "sink_master=mic_denoised_out",
            "label=noise_suppressor_mono",
            "plugin=" ++ ladspaFilePath env.path, "control=95"],
         [PACMD, "load-module", "module-loopback",
            "source=" ++ i, "sink=mic_raw_in", "channels=1"],
         [PACMD, "load-module", "module-remap-source",
            "source_name=denoised", "master=mic_denoised_out.monitor",
            "channels=1"],
         [PACMD, "set-default-source", "denoised"]], Outcome.success) := by
  unfold enable_rnnoise
  rw [hs]
  simp only [hl, if_true]
  rw [runChecked_all_ok env.cmdOk _ (fun c _ => hok c)]
  rfl

/-- Claim C1 witness: the order theorem evaluated in `wEnvOk`. -/
theorem enable_fixed_command_order_witness :
    enable_rnnoise wEnvOk =
      (statCmd ::
        [[PACMD, "load-module", "module-null-sink",
            "sink_name=mic_denoised_out", "rate=48000"],
         [PACMD, "load-module", "module-ladspa-sink",
            "sink_name=mic_raw_in", "sink_master=mic_denoised_out",
            "label=noise_suppressor_mono",
            "plugin=" ++ ladspaFilePath wEnvOk.path, "control=95"],
         [PACMD, "load-module", "module-loopback",
            "source=" ++ "mic_in", "sink=mic_raw_in", "channels=1"],
         [PACMD, "load-module", "module-remap-source",
            "source_name=denoised", "master=mic_denoised_out.monitor",
            "channels=1"],
         [PACMD, "set-default-source", "denoised"]], Outcome.success) :=
  enable_fixed_command_order wEnvOk "mic_in" "speaker_out" (by decide) rfl
    (fun _ => rfl)

/-- Claim C2: whenever a step of `enable_rnnoise` raises an ordinary
exception, the dispatcher issues the full four-command unload sequence,
then prints the diagnostic trace, does not re-raise, and the process
exits with status 0. -/
theorem enable_exception_rollback (env : EnableEnv) (monitor : Bool)
    (h : (enable_rnnoise env).2 = Outcome.exc) :
    enableAction env monitor =
      ((enable_rnnoise env).1.map Event.cmd
        ++ disableCommands.map Event.cmd ++ [Event.printExc], 0) := by
  simp only [enableAction, h, disable_rnnoise, runBestEffort_eq]

/-- Claim C2 witness: with the loopback creation failing, the trace is
`pacmd stat`, the first three load commands, the failing loopback command,
then all four unload commands, then the printed trace, and exit status 0. -/
theorem enable_exception_rollback_witness :
    enableAction wEnvLoopFail false =
      ((enable_rnnoise wEnvLoopFail).1.map Event.cmd
        ++ disableCommands.map Event.cmd ++ [Event.printExc], 0) :=
  enable_exception_rollback wEnvLoopFail false (by decide)

/-- Claim C3: `disable_rnnoise` issues exactly four unload commands, one
per module type, in every environment — the outcome of each command is
ignored, so all four are always attempted — and it always returns
normally (never raises). -/
theorem disable_exactly_four_unloads (ok : List String → Bool) :
    disable_rnnoise ok =
      ([[PACTL, "unload-module", "module-loopback"],
        [PACTL, "unload-module", "module-null-sink"],
        [PACTL, "unload-module", "module-ladspa-sink"],
        [PACTL, "unload-module", "module-remap-source"]], Outcome.success) ∧
    (disable_rnnoise ok).1.length = 4 := by
  constructor
  · rw [disable_rnnoise, runBestEffort_eq]
    rfl
  · rw [disable_rnnoise, runBestEffort_eq]
    rfl

/-- Claim C7: `uninstall` with the install directory present runs the
four-command disable cleanup, then removes the directory, and exits 0;
with the directory absent it exits 1 having done nothing.  Running it
twice in a row from an installed state therefore fails only the second
time. -/
theorem uninstall_twice_not_installed (path : String) (ok : List String → Bool) :
    uninstallAction path ok true =
      (disableCommands.map Event.cmd ++ [Event.rmtree path], 0, false) ∧
    uninstallAction path ok false = ([], 1, false) ∧
    uninstallAction path ok (uninstallAction path ok true).2.2 = ([], 1, false) := by
  refine ⟨?_, rfl, ?_⟩
  · rw [uninstallAction, if_pos rfl, disable_rnnoise, runBestEffort_eq]
  · rfl

/-- Claim C9: when the plugin file is absent (and the sink query itself
succeeded), the enable action stops with `sys.exit 1`: the `SystemExit`
is not caught by `except Exception`, so the process exits with status 1
and no unload (rollback) command is ever issued. -/
theorem missing_binary_skips_rollback (env : EnableEnv) (monitor : Bool)
    (i o : String)
    (hs : get_default_sinks env.statOut = (some i, some o))
    (hl : env.ladspaExists = false) :
    enableAction env monitor = ([Event.cmd statCmd], 1) ∧
    ∀ c, Event.cmd c ∈ (enableAction env monitor).1 → "unload-module" ∉ c := by
  have he : enable_rnnoise env = ([statCmd], Outcome.fatalExit 1) := by
    unfold enable_rnnoise
    rw [hs]
    simp [hl]
  have ha : enableAction env monitor = ([Event.cmd statCmd], 1) := by
    unfold enableAction
    rw [he]
    rfl
  refine ⟨ha, ?_⟩
  intro c hc
  rw [ha] at hc
  have hcs : c = statCmd := by
    simpa using hc
  rw [hcs]
  decide

/-- Claim C9 witness: the missing-binary theorem evaluated in `wEnvNoLib`. -/
theorem missing_binary_skips_rollback_witness :
    enableAction wEnvNoLib false = ([Event.cmd statCmd], 1) ∧
    ∀ c, Event.cmd c ∈ (enableAction wEnvNoLib false).1 → "unload-module" ∉ c :=
  missing_binary_skips_rollback wEnvNoLib false "mic_in" "speaker_out"
    (by decide) rfl

theorem sinksFold_pair (lines : List String) (p : Option String × Option String) :
    List.foldl sinksStep p lines =
      (List.foldl
        (fun acc line => if pyStartswith line srcPfx then some (valOf line) else acc)
        p.1 lines,
       List.foldl
        (fun acc line => if pyStartswith line sinkPfx then some (valOf line) else acc)
        p.2 lines) := by
  induction lines generalizing p with
  | nil => simp
  | cons l ls ih =>
    rw [List.foldl_cons, List.foldl_cons, List.foldl_cons, ih]
    rfl

/-- The example `pacmd stat` output of the specification. -/
def exampleStat : String :=
  "Default source name: alsa_input.pci-0000_00_1f.3.analog-stereo\nDefault sink name: alsa_output.pci-0000_00_1f.3.analog-stereo"

/-- A status output in which the source line occurs twice with different
values. -/
def dupStat : String :=
  "Default source name: alpha\nDefault sink name: beta\nDefault source name: gamma"

/-- Claim C4 counterexample: on an output whose source prefix matches two
lines, `get_default_sinks` returns the value of the last matching line
(`gamma`), not of the first (`alpha`). -/
theorem sinks_first_match_cex :
    get_default_sinks dupStat = (some "gamma", some "beta") ∧
    get_default_sinks dupStat ≠ (some "alpha", some "beta") := by
  constructor
  · decide
  · decide

/-- Claim C4 amended: `get_default_sinks` returns, for each of the two
prefixes, the value of the last matching line of the status output; on
the example output (one matching line per prefix) it returns exactly the
two device names verbatim. -/
theorem sinks_last_match (stdout : String) :
    get_default_sinks stdout =
      (lastMatch srcPfx (pySplit stdout "\n"),
       lastMatch sinkPfx (pySplit stdout "\n")) ∧
    get_default_sinks exampleStat =
      (some "alsa_input.pci-0000_00_1f.3.analog-stereo",
       some "alsa_output.pci-0000_00_1f.3.analog-stereo") := by
  constructor
  · rw [get_default_sinks, lastMatch, lastMatch, sinksFold_pair]
  · decide

/-- Claim C6 counterexample: with the plugin file absent, the trace of
`enable_rnnoise` nevertheless contains the `pacmd stat` sink query — the
default sinks are queried before the binary check, not only after it. -/
theorem enable_stat_precedes_check_cex :
    enable_rnnoise wEnvNoLib = ([statCmd], Outcome.fatalExit 1) ∧
    statCmd ∈ (enable_rnnoise wEnvNoLib).1 := by
  constructor
  · decide
  · decide

/-- Claim C6 amended: the Enabling transition queries the current default
sinks first (the trace always begins with `pacmd stat`), and only then
verifies that the plugin binary exists under the install directory,
exiting the process fatally with status 1 when it is missing. -/
theorem enable_sinks_then_binary_check (env : EnableEnv) (i o : String)
    (hs : get_default_sinks env.statOut = (some i, some o)) :
    (env.ladspaExists = false →
      enable_rnnoise env = ([statCmd], Outcome.fatalExit 1)) ∧
    (enable_rnnoise env).1.headD [] = statCmd := by
  constructor
  · intro hl
    unfold enable_rnnoise
    rw [hs]
    simp [hl]
  · unfold enable_rnnoise
    rw [hs]
    cases h : env.ladspaExists
    · simp
    · simp

/-- Claim C6 amended witness: the amended theorem evaluated in the
missing-binary environment `wEnvNoLib`. -/
theorem enable_sinks_then_binary_check_witness :
    (wEnvNoLib.ladspaExists = false →
      enable_rnnoise wEnvNoLib = ([statCmd], Outcome.fatalExit 1)) ∧
    (enable_rnnoise wEnvNoLib).1.headD [] = statCmd :=
  enable_sinks_then_binary_check wEnvNoLib "mic_in" "speaker_out" (by decide)

theorem resolveFold_cases (assets : List Asset) :
    ∀ init : Option String,
      ((∀ a ∈ assets, pyStartswith a.name "linux" = false) ∧
        List.foldl
          (fun acc a =>
            if pyStartswith a.name "linux" then some a.browser_download_url
            else acc)
          init assets = init) ∨
      (∃ a ∈ assets, pyStartswith a.name "linux" = true ∧
        List.foldl
          (fun acc a =>
            if pyStartswith a.name "linux" then some a.browser_download_url
            else acc)
          init assets = some a.browser_download_url) := by
  induction assets with
  | nil => exact fun init => Or.inl ⟨by simp, rfl⟩
  | cons a rest ih =>
    intro init
    rw [List.foldl_cons]
    cases hm : pyStartswith a.name "linux" with
    | false =>
      rw [if_neg (by simp)]
      rcases ih init with ⟨hnone, hres⟩ | ⟨b, hb, hbm, hres⟩
      · exact Or.inl ⟨by
          intro x hx
          rcases List.mem_cons.mp hx with hxa | hxr
          · rw [hxa]; exact hm
          · exact hnone x hxr, hres⟩
      · exact Or.inr ⟨b, List.mem_cons_of_mem a hb, hbm, hres⟩
    | true =>
      rw [if_pos rfl]
      rcases ih (some a.browser_download_url) with ⟨hnone, hres⟩ | ⟨b, hb, hbm, hres⟩
      · exact Or.inr ⟨a, List.mem_cons_self a rest, hm, hres⟩
      · exact Or.inr ⟨b, List.mem_cons_of_mem a hb, hbm, hres⟩

/-- Claim C8: when the release listing has at least one asset whose name
starts with `linux`, resolution yields the download URL of such an
asset; when no asset matches, the install branch errors out with exit
status 1; and on the one-asset example listing resolution yields exactly
`https://x/y`. -/
theorem resolve_linux_asset :
    (∀ assets : List Asset,
      (∃ a ∈ assets, pyStartswith a.name "linux" = true) →
      ∃ a ∈ assets, pyStartswith a.name "linux" = true ∧
        resolveDownloadUrl assets = some a.browser_download_url) ∧
    (∀ assets : List Asset,
      (∀ a ∈ assets, pyStartswith a.name "linux" = false) →
      installResolveExit assets = Except.error 1) ∧
    installResolveExit [⟨"linux-x86_64.tar.gz", "https://x/y"⟩] =
      Except.ok "https://x/y" := by
  refine ⟨?_, ?_, rfl⟩
  · intro assets ⟨a, ha, hm⟩
    rcases resolveFold_cases assets none with ⟨hnone, _⟩ | ⟨b, hb, hbm, hres⟩
    · rw [hnone a ha] at hm
      exact absurd hm (by simp)
    · exact ⟨b, hb, hbm, hres⟩
  · intro assets hnone
    rcases resolveFold_cases assets none with ⟨_, hres⟩ | ⟨b, hb, hbm, _⟩
    · rw [installResolveExit, resolveDownloadUrl, hres]
    · rw [hnone b hb] at hbm
      exact absurd hbm (by simp)

/-- The response used to refute the claimed filename priority: a
content-disposition filename is available. -/
def c5resp : HttpResponse :=
  { contentDisposition := some "filename=remote-name.tar.gz"
    finalUrl := "https://host/path/archive.tar.gz" }

/-- Claim C5 counterexample: with both a content-disposition filename and
an explicit override present, `download` writes to the override path and
creates no directory, so the content-disposition header is not the
highest-priority filename source and no destination directory is made. -/
theorem download_priority_cex :
    download "https://host/start" (some "/tmp/rnnoise.tar.gz") none c5resp =
      { mkdirs := [], output_file := "/tmp/rnnoise.tar.gz" } ∧
    dispositionName c5resp = some "remote-name.tar.gz" ∧
    ("/tmp/rnnoise.tar.gz" : String) ≠ "remote-name.tar.gz" := by
  refine ⟨rfl, by decide, by decide⟩

/-- Claim C5 amended: the output filename is derived from the explicit
override, the content-disposition header, or the URL-decoded last path
segment, in that priority order (override highest); the destination
directory is created exactly when no explicit override is given. -/
theorem download_priority_amended (url : String)
    (save_as save_path : Option String) (resp : HttpResponse) :
    (download url save_as save_path resp).output_file =
      amendedOutputName save_as save_path resp ∧
    (download url save_as save_path resp).mkdirs =
      (match save_as with
        | some _ => []
        | none => [save_path.getD "."]) := by
  cases save_as with
  | some s => exact ⟨rfl, rfl⟩
  | none =>
    cases save_path with
    | none =>
      cases hd : dispositionName resp with
      | none => exact ⟨by simp [download, amendedOutputName, hd], rfl⟩
      | some fn => exact ⟨by simp [download, amendedOutputName, hd], rfl⟩
    | some p =>
      cases hd : dispositionName resp with
      | none => exact ⟨by simp [download, amendedOutputName, hd], rfl⟩
      | some fn => exact ⟨by simp [download, amendedOutputName, hd], rfl⟩

theorem isPrefixOf_append_self (p s : List Char) :
    List.isPrefixOf p (p ++ s) = true := by
  simp [List.isPrefixOf_iff_prefix]

theorem sepCS_not_prefixOf (c : Char) (t : List Char) (h : c ≠ ':') :
    List.isPrefixOf sepCS (c :: t) = false := by
  simp [sepCS, List.isPrefixOf]
  intro hc
  exact absurd hc.symm h

theorem sinkPfx_not_on_src_line (v : List Char) :
    List.isPrefixOf sinkPfx.data (srcPfx.data ++ v) = false := by
  by_contra hb
  rw [Bool.not_eq_false] at hb
  have hpre := List.isPrefixOf_iff_prefix.mp hb
  have heq := List.prefix_iff_eq_take.mp hpre
  rw [List.take_append_of_le_length (by decide)] at heq
  exact absurd heq (by decide)

theorem splitAuxF_skip_safe (a : List Char) (h : ∀ c ∈ a, c ≠ ':') :
    ∀ (s acc : List Char) (fuel : Nat), a.length + s.length ≤ fuel →
      splitAuxF sepCS fuel (a ++ s) acc =
        splitAuxF sepCS (fuel - a.length) s (a.reverse ++ acc) := by
  induction a with
  | nil =>
    intro s acc fuel _
    simp
  | cons c a ih =>
    intro s acc fuel hf
    obtain ⟨f, rfl⟩ : ∃ f, fuel = f + 1 := ⟨fuel - 1, by
      simp only [List.length_cons] at hf
      omega⟩
    have hstep : splitAuxF sepCS (f + 1) ((c :: a) ++ s) acc =
        splitAuxF sepCS f (a ++ s) (c :: acc) := by
      rw [List.cons_append, splitAuxF]
      rw [sepCS_not_prefixOf c (a ++ s) (h c (List.mem_cons_self c a))]
      simp
    rw [hstep,
      ih (fun d hd => h d (List.mem_cons_of_mem c hd)) s (c :: acc) f (by
        simp only [List.length_cons] at hf
        omega)]
    have h1 : f + 1 - (c :: a).length = f - a.length := by
      simp only [List.length_cons]
      omega
    have h2 : (c :: a).reverse ++ acc = a.reverse ++ (c :: acc) := by
      simp
    rw [h1, h2]

theorem splitAuxF_sep_step (v acc : List Char) (f : Nat) :
    splitAuxF sepCS (f + 2) (sepCS ++ v) acc =
      acc.reverse :: splitAuxF sepCS (f + 1) v [] := by
  show splitAuxF sepCS (f + 1 + 1) (':' :: ' ' :: v) acc = _
  rw [splitAuxF]
  simp [sepCS, List.isPrefixOf]

theorem splitAuxF_head_sepCS :
    ∀ (value : List Char) (fuel : Nat) (acc : List Char), value.length ≤ fuel →
      ∃ h t, splitAuxF sepCS fuel value acc = (acc.reverse ++ h) :: t ∧
        ((containsSub sepCS value = false ∧ h = value) ∨
         (∃ rest, value = h ++ sepCS ++ rest ∧
           firstOccAt sepCS value h.length)) := by
  intro value
  induction value with
  | nil =>
    intro fuel acc _
    refine ⟨[], [], ?_, Or.inl ⟨rfl, rfl⟩⟩
    cases fuel <;> simp [splitAuxF]
  | cons c rest ih =>
    intro fuel acc hf
    obtain ⟨f, rfl⟩ : ∃ f, fuel = f + 1 := ⟨fuel - 1, by
      simp only [List.length_cons] at hf
      omega⟩
    by_cases hp : List.isPrefixOf sepCS (c :: rest) = true
    · obtain ⟨tl, htl⟩ := List.isPrefixOf_iff_prefix.mp hp
      refine ⟨[], splitAuxF sepCS f ((c :: rest).drop sepCS.length) [], ?_,
        Or.inr ⟨(c :: rest).drop sepCS.length, ?_, ?_, ?_⟩⟩
      · rw [splitAuxF, if_pos hp]
        simp
      · rw [← htl]
        simp [List.drop_left]
      · simpa using hp
      · intro i hi
        simp at hi
    · have hpf : List.isPrefixOf sepCS (c :: rest) = false := by
        rwa [Bool.not_eq_true] at hp
      obtain ⟨h, t, heq, hd⟩ := ih f (c :: acc) (by
        simp only [List.length_cons] at hf
        omega)
      refine ⟨c :: h, t, ?_, ?_⟩
      · rw [splitAuxF, if_neg (by rw [hpf]; simp), heq]
        simp
      · rcases hd with ⟨hnc, hh⟩ | ⟨r, hr, hfo⟩
        · refine Or.inl ⟨?_, by rw [hh]⟩
          rw [containsSub, hpf, hnc]
          rfl
        · refine Or.inr ⟨r, ?_, ?_, ?_⟩
          · rw [hr]
            simp
          · simp only [List.length_cons, List.drop_succ_cons]
            exact hfo.1
          · intro i hi
            cases i with
            | zero => simpa using hpf
            | succ j =>
              simp only [List.drop_succ_cons]
              exact hfo.2 j (by
                simp only [List.length_cons] at hi
                omega)

theorem srcPfx_not_on_sink_line (v : List Char) :
    List.isPrefixOf srcPfx.data (sinkPfx.data ++ v) = false := by
  by_contra hb
  rw [Bool.not_eq_false] at hb
  obtain ⟨t, ht⟩ := List.isPrefixOf_iff_prefix.mp hb
  have h19 : (srcPfx.data ++ t).take 19 = (sinkPfx.data ++ v).take 19 := by
    rw [ht]
  rw [List.take_append_of_le_length (by decide),
    List.take_append_of_le_length (by decide)] at h19
  exact absurd h19 (by decide)

theorem valOf_prefix_line (name : List Char) (hname : ∀ c ∈ name, c ≠ ':')
    (value : String) (h : List Char) (t : List (List Char))
    (heq : splitAuxF sepCS (value.data.length + 1) value.data [] = h :: t) :
    valOf (String.mk (name ++ (sepCS ++ value.data))) = String.mk h := by
  rw [valOf, pySplit,
    show (": " : String).data = sepCS from rfl,
    show (String.mk (name ++ (sepCS ++ value.data))).data
      = name ++ (sepCS ++ value.data) from rfl]
  have hfuel : name.length + (sepCS ++ value.data).length
      ≤ (name ++ (sepCS ++ value.data)).length := by
    simp only [List.length_append]
    omega
  have hskip := splitAuxF_skip_safe name hname (sepCS ++ value.data) []
    ((name ++ (sepCS ++ value.data)).length) hfuel
  have hsub : (name ++ (sepCS ++ value.data)).length - name.length
      = value.data.length + 2 := by
    simp only [List.length_append, show sepCS.length = 2 from rfl]
    omega
  rw [hsub] at hskip
  rw [hskip, splitAuxF_sep_step, heq]
  simp [List.getD]

/-- Claim C10: for every status line built from either of the two
recognized prefixes (`Default source name: ` or `Default sink name: `)
and a value that itself contains the separator `": "`, the stored value
is only the portion of the value before its first `": "` occurrence —
the line is split on `": "` and element 1 is taken — so the device name
is stored truncated (strictly shorter than the full value), not
verbatim: a source line stores it in the first component, a sink line in
the second, leaving the other component untouched. -/
theorem sink_value_truncated (value : String) (acc : Option String × Option String)
    (hocc : containsSub sepCS value.data = true) :
    ∃ s rest,
      sinksStep acc (String.mk (srcPfx.data ++ value.data)) = (some s, acc.2) ∧
      sinksStep acc (String.mk (sinkPfx.data ++ value.data)) = (acc.1, some s) ∧
      value.data = s.data ++ sepCS ++ rest ∧
      firstOccAt sepCS value.data s.data.length ∧
      s.data.length < value.data.length := by
  obtain ⟨h, t, heq, hd⟩ := splitAuxF_head_sepCS value.data
    (value.data.length + 1) [] (by omega)
  rcases hd with ⟨hnc, _⟩ | ⟨r, hr, hfo⟩
  · rw [hocc] at hnc
    exact absurd hnc (by simp)
  · have heqh : splitAuxF sepCS (value.data.length + 1) value.data [] = h :: t := by
      simpa using heq
    have hvalsrc : valOf (String.mk (srcPfx.data ++ value.data)) = String.mk h := by
      rw [show srcPfx.data ++ value.data
          = "Default source name".data ++ (sepCS ++ value.data) from by
        rw [show srcPfx.data = "Default source name".data ++ sepCS from rfl,
          List.append_assoc]]
      exact valOf_prefix_line "Default source name".data (by decide) value h t heqh
    have hvalsink : valOf (String.mk (sinkPfx.data ++ value.data)) = String.mk h := by
      rw [show sinkPfx.data ++ value.data
          = "Default sink name".data ++ (sepCS ++ value.data) from by
        rw [show sinkPfx.data = "Default sink name".data ++ sepCS from rfl,
          List.append_assoc]]
      exact valOf_prefix_line "Default sink name".data (by decide) value h t heqh
    refine ⟨String.mk h, r, ?_, ?_, hr, hfo, ?_⟩
    · rw [sinksStep]
      rw [show pyStartswith (String.mk (srcPfx.data ++ value.data)) srcPfx = true from
          isPrefixOf_append_self srcPfx.data value.data,
        show pyStartswith (String.mk (srcPfx.data ++ value.data)) sinkPfx = false from
          sinkPfx_not_on_src_line value.data,
        hvalsrc]
      simp
    · rw [sinksStep]
      rw [show pyStartswith (String.mk (sinkPfx.data ++ value.data)) sinkPfx = true from
          isPrefixOf_append_self sinkPfx.data value.data,
        show pyStartswith (String.mk (sinkPfx.data ++ value.data)) srcPfx = false from
          srcPfx_not_on_sink_line value.data,
        hvalsink]
      simp
    · rw [show (String.mk h).data = h from rfl, hr]
      rw [List.length_append, List.length_append,
        show sepCS.length = 2 from rfl]
      omega

/-- Claim C10 witness: the truncation theorem evaluated on the value
`alsa: front`, whose stored form is `alsa` on both the source line and
the sink line. -/
theorem sink_value_truncated_witness :
    containsSub sepCS ("alsa: front" : String).data = true ∧
    (∃ s rest,
      sinksStep ((none, none) : Option String × Option String)
        (String.mk (srcPfx.data ++ ("alsa: front" : String).data)) =
        (some s, (none : Option String)) ∧
      sinksStep ((none, none) : Option String × Option String)
        (String.mk (sinkPfx.data ++ ("alsa: front" : String).data)) =
        ((none : Option String), some s) ∧
      ("alsa: front" : String).data = s.data ++ sepCS ++ rest ∧
      firstOccAt sepCS ("alsa: front" : String).data s.data.length ∧
      s.data.length < ("alsa: front" : String).data.length) :=
  ⟨by decide, sink_value_truncated "alsa: front" (none, none) (by decide)⟩
